import Mathlib

/-
Verification of the identity-resolution engine of the `users` package
(`GitUserAsUser`, `UpdateUserFromPRAuthor`, `mergeGitUsers` and their helpers),
shallowly embedded as pure Lean functions.  The store client is modelled by the
list of records in the namespace; every write the engine would issue is
recorded in an explicit write list.  Remote provider lookups are modelled by a
function `String → Option GitUser` (`none` is the not-found signal, mirroring
the nil pointer returned by `UserInfo`).
-/

namespace Jx

/-- External identity fragment (`gits.GitUser`): one observation from an
external source; any field may be empty. -/
structure GitUser where
  login : String
  name : String
  email : String
  url : String
  avatarURL : String
  deriving Repr, DecidableEq

/-- `jenkinsv1.AccountReference`: a link from a canonical record to one
external account. -/
structure AccountReference where
  provider : String
  id : String
  deriving Repr, DecidableEq

/-- `jenkinsv1.UserDetails`: the spec of a canonical identity record. -/
structure UserDetails where
  login : String
  name : String
  email : String
  url : String
  avatarURL : String
  accounts : List AccountReference
  deriving Repr, DecidableEq

/-- `jenkinsv1.User`: a canonical identity record, with its store-internal
name and its label map (modelled as an association list). -/
structure User where
  name : String
  labels : List (String × String)
  spec : UserDetails
  deriving Repr, DecidableEq

/-- Lookup in a label map (Go map read `labels[key]`). -/
def labelGet (labels : List (String × String)) (key : String) : Option String :=
  (labels.find? (fun p => p.1 == key)).map (fun p => p.2)

/-- Write in a label map (Go map write `labels[key] = val`; creating the map
when it is nil is implicit in the association-list representation). -/
def labelSet (labels : List (String × String)) (key val : String) :
    List (String × String) :=
  if labels.any (fun p => p.1 == key) then
    labels.map (fun p => if p.1 == key then (key, val) else p)
  else
    labels ++ [(key, val)]

/-- `gits.GitCommit`, restricted to the fields the reconciler reads. -/
structure GitCommit where
  sha : String
  author : Option GitUser
  deriving Repr, DecidableEq

/-- `gits.GitPullRequest`; the reconciler only tests it against nil, so no
field is relevant. -/
structure GitPullRequest where
  number : Nat
  deriving Repr, DecidableEq

/-- `GitUserResolver`: the provider kind and the remote lookup
(`GitProvider.Kind` and `GitProvider.UserInfo`); `none` models the nil
pointer `UserInfo` returns for a missing identity. -/
structure GitUserResolver where
  gitProviderKind : String
  userInfo : String → Option GitUser

/-- `GitProviderKey`: `fmt.Sprintf("jenkins.io/git-%s-userid", kind)`. -/
def GitUserResolver.providerKey (r : GitUserResolver) : String :=
  "jenkins.io/git-" ++ r.gitProviderKind ++ "-userid"

/-- The errors `GitUserAsUser` can raise itself (store transport failures are
not modelled; the pure store always answers). -/
inductive ResolveError where
  | invalidInput : ResolveError
  | ambiguousLabel : ResolveError
  | ambiguousLogin : ResolveError
  | ambiguousEmail : ResolveError
  deriving Repr, DecidableEq

/-- The ambiguity errors: every error of the cascade except the nil-input
check. -/
def ResolveError.isAmbiguous : ResolveError → Bool
  | .invalidInput => false
  | _ => true

/-- One store mutation issued by the engine. -/
inductive WriteOp where
  | update : User → WriteOp
  | create : User → WriteOp
  deriving Repr, DecidableEq

/-- Outcome of a resolution: the returned record or the error. -/
inductive ResolveOutcome where
  | ok : User → ResolveOutcome
  | error : ResolveError → ResolveOutcome
  deriving Repr, DecidableEq

/-- A resolution outcome together with the list of store writes the engine
issued, in order. -/
structure ResolveResult where
  result : ResolveOutcome
  writes : List WriteOp
  deriving Repr, DecidableEq

/-- Stage 1 lookup: the records returned by the label-selector list
`List(providerKey = login)`. -/
def labelHits (pk login : String) (store : List User) : List User :=
  store.filter (fun u => labelGet u.labels pk == some login)

/-- Stage 2 scan: for each record, for each of its accounts matching
`{Provider: pk, ID: login}`, the record is appended once (mirroring the
nested loops building `possibles`, multiplicity included). -/
def accountMatches (pk login : String) : List User → List User
  | [] => []
  | u :: rest =>
    (u.spec.accounts.filter (fun a => a.provider == pk && a.id == login)).map
        (fun _ => u)
      ++ accountMatches pk login rest

/-- Stage 3 scan: the records whose stored email equals the remote fragment
email; empty when the provider reported not-found. The comparison is plain
string equality, with no emptiness guard. -/
def emailPossibles (gitUser : Option GitUser) (store : List User) : List User :=
  match gitUser with
  | none => []
  | some g => store.filter (fun u => u.spec.email == g.email)

/-- Modelled from the spec: `CreateUser` is declared outside this package
(only its call site `GitUserToUser` is in the source). Per the spec it
synthesizes a new canonical record in the namespace; per its call site it
receives only the login, name and email of the fragment, so those are the
only spec fields it can populate. The store-internal name is derived from
the login. -/
def CreateUser (login name email : String) : User :=
  { name := login
  , labels := []
  , spec :=
      { login := login, name := name, email := email, url := ""
      , avatarURL := "", accounts := [] } }

/-- Modelled from the spec: `AddAccountReference` is declared outside this
package; per the spec it attaches one AccountReference for the provider to
the record. -/
def AddAccountReference (user : User) (provider id : String) : User :=
  { user with
      spec :=
        { user.spec with
            accounts := user.spec.accounts ++ [{ provider := provider, id := id }] } }

/-- `GitUserToUser`: converts a fragment into a fresh canonical record with
one AccountReference for this provider
(`AddAccountReference(CreateUser(ns, login, name, email), providerKey, login)`). -/
def GitUserResolver.gitUserToUser (r : GitUserResolver) (gitUser : GitUser) : User :=
  AddAccountReference (CreateUser gitUser.login gitUser.name gitUser.email)
    r.providerKey gitUser.login

/-- `mergeGitUsers`: merges user1 into user2, field by field; a nil first
argument yields the second argument, a nil second argument yields the first. -/
def mergeGitUsers : Option GitUser → Option GitUser → Option GitUser
  | none, user2 => user2
  | some user1, none => some user1
  | some user1, some user2 =>
    some
      { avatarURL := if user1.avatarURL ≠ "" then user1.avatarURL else user2.avatarURL
      , url := if user1.url ≠ "" then user1.url else user2.url
      , name := if user1.name ≠ "" then user1.name else user2.name
      , login := if user1.login ≠ "" then user1.login else user2.login
      , email := if user1.email ≠ "" then user1.email else user2.email }

/-- The record mutation of the email-correlation hit: append the
AccountReference `{ID: gitUser.Login, Provider: providerKey}` and add the
label `providerKey = user.Login` (the original fragment login). -/
def emailFound (r : GitUserResolver) (user g : GitUser) (found : User) : User :=
  { found with
      labels := labelSet found.labels r.providerKey user.login
    , spec :=
        { found.spec with
            accounts :=
              found.spec.accounts ++ [{ provider := r.providerKey, id := g.login }] } }

/-- Stages 3 and 4 of `GitUserAsUser`: remote lookup, email correlation, and
the creation fallback. The `Option.getD` never fires: merging with a some
second argument is always some; it mirrors the pointer dereference in
`GitUserToUser`. -/
def emailStage (r : GitUserResolver) (store : List User) (user : GitUser) :
    ResolveResult :=
  if (emailPossibles (r.userInfo user.login) store).length > 1 then
    { result := .error .ambiguousEmail, writes := [] }
  else
    match emailPossibles (r.userInfo user.login) store, r.userInfo user.login with
    | [found], some g =>
      { result := .ok (emailFound r user g found)
      , writes := [.update (emailFound r user g found)] }
    | _, _ =>
      { result :=
          .ok (r.gitUserToUser ((mergeGitUsers (r.userInfo user.login) (some user)).getD user))
      , writes :=
          [.create (r.gitUserToUser ((mergeGitUsers (r.userInfo user.login) (some user)).getD user))] }

/-- The part of `GitUserAsUser` after the label fast path: the full-namespace
list, the AccountReference scan with index healing, then `emailStage`. -/
def resolveAfterLabel (r : GitUserResolver) (store : List User) (user : GitUser) :
    ResolveResult :=
  if user.login ≠ "" then
    if (accountMatches r.providerKey user.login store).length > 1 then
      { result := .error .ambiguousLogin, writes := [] }
    else
      match accountMatches r.providerKey user.login store with
      | [found] =>
        { result := .ok { found with labels := labelSet found.labels r.providerKey user.login }
        , writes := [.update { found with labels := labelSet found.labels r.providerKey user.login }] }
      | _ => emailStage r store user
  else
    emailStage r store user

/-- `GitUserAsUser`: the full resolution cascade. A nil fragment fails with
the invalid-input error; a non-empty login first goes through the
label-indexed fast path. -/
def GitUserResolver.gitUserAsUser (r : GitUserResolver) (store : List User)
    (user : Option GitUser) : ResolveResult :=
  match user with
  | none => { result := .error .invalidInput, writes := [] }
  | some user =>
    if user.login ≠ "" then
      if (labelHits r.providerKey user.login store).length > 1 then
        { result := .error .ambiguousLabel, writes := [] }
      else
        match labelHits r.providerKey user.login store with
        | [u] => { result := .ok u, writes := [] }
        | _ => resolveAfterLabel r store user
    else
      resolveAfterLabel r store user

/-- `GitUserLogin`: the ID of the first AccountReference of this provider,
or the empty string. -/
def GitUserResolver.gitUserLogin (r : GitUserResolver) (user : User) : String :=
  match user.spec.accounts.find? (fun a => a.provider == r.providerKey) with
  | some a => a.id
  | none => ""

/-- The login `UpdateUserFromPRAuthor` correlates on: the AccountReference
ID for this provider, falling back to the raw spec login when empty. -/
def effectiveGitLogin (r : GitUserResolver) (author : User) : String :=
  if r.gitUserLogin author == "" then author.spec.login else r.gitUserLogin author

/-- The commit loop of `UpdateUserFromPRAuthor`: the author of the first
commit whose (non-nil) author login equals the given login. -/
def scanCommits (gitLogin : String) : List GitCommit → Option GitUser
  | [] => none
  | commit :: rest =>
    match commit.author with
    | some ca => if gitLogin == ca.login then some ca else scanCommits gitLogin rest
    | none => scanCommits gitLogin rest

/-- Whether a commit has a non-nil author whose login equals the given
login (the loop condition `commit.Author != nil && gitLogin == commit.Author.Login`). -/
def commitMatches (gitLogin : String) (commit : GitCommit) : Bool :=
  match commit.author with
  | some ca => gitLogin == ca.login
  | none => false

/-- `UpdateUserFromPRAuthor`: when the pull request and the author are
non-nil, overwrite the author email with the first matching commit author
email and issue one update; otherwise return the author unchanged with no
write. -/
def GitUserResolver.updateUserFromPRAuthor (r : GitUserResolver)
    (author : Option User) (pullRequest : Option GitPullRequest)
    (commits : List GitCommit) : Option User × List WriteOp :=
  match pullRequest with
  | none => (author, [])
  | some _ =>
    match author with
    | none => (none, [])
    | some a =>
      match scanCommits (effectiveGitLogin r a) commits with
      | some ca =>
        (some { a with spec := { a.spec with email := ca.email } },
         [.update { a with spec := { a.spec with email := ca.email } }])
      | none => (some a, [])

/-- Effect of one write on the store: an update replaces the record with the
same store-internal name, a create appends. -/
def applyWrite (store : List User) : WriteOp → List User
  | .update u => store.map (fun v => if v.name == u.name then u else v)
  | .create u => store ++ [u]

/-- Effect of a write list on the store, in order. -/
def applyWrites (store : List User) (ws : List WriteOp) : List User :=
  ws.foldl applyWrite store

/-! ### Reduction lemmas for the cascade -/

lemma gitUserAsUser_login_empty (r : GitUserResolver) (store : List User)
    (user : GitUser) (h : user.login = "") :
    r.gitUserAsUser store (some user) = emailStage r store user := by
  simp [GitUserResolver.gitUserAsUser, resolveAfterLabel, h]

lemma gitUserAsUser_label_hit (r : GitUserResolver) (store : List User)
    (user : GitUser) (u : User) (hlogin : user.login ≠ "")
    (hhits : labelHits r.providerKey user.login store = [u]) :
    r.gitUserAsUser store (some user) = { result := .ok u, writes := [] } := by
  simp only [GitUserResolver.gitUserAsUser]
  rw [if_pos hlogin, hhits]
  simp

lemma gitUserAsUser_label_ambiguous (r : GitUserResolver) (store : List User)
    (user : GitUser) (hlogin : user.login ≠ "")
    (hlen : (labelHits r.providerKey user.login store).length > 1) :
    r.gitUserAsUser store (some user) = { result := .error .ambiguousLabel, writes := [] } := by
  simp only [GitUserResolver.gitUserAsUser]
  rw [if_pos hlogin, if_pos hlen]

lemma gitUserAsUser_label_miss (r : GitUserResolver) (store : List User)
    (user : GitUser) (hlogin : user.login ≠ "")
    (hhits : labelHits r.providerKey user.login store = []) :
    r.gitUserAsUser store (some user) = resolveAfterLabel r store user := by
  simp only [GitUserResolver.gitUserAsUser]
  rw [if_pos hlogin, hhits]
  simp

lemma resolveAfterLabel_acct_ambiguous (r : GitUserResolver) (store : List User)
    (user : GitUser) (hlogin : user.login ≠ "")
    (hlen : (accountMatches r.providerKey user.login store).length > 1) :
    resolveAfterLabel r store user = { result := .error .ambiguousLogin, writes := [] } := by
  unfold resolveAfterLabel
  rw [if_pos hlogin, if_pos hlen]

lemma resolveAfterLabel_acct_hit (r : GitUserResolver) (store : List User)
    (user : GitUser) (u : User) (hlogin : user.login ≠ "")
    (hacct : accountMatches r.providerKey user.login store = [u]) :
    resolveAfterLabel r store user =
      { result := .ok { u with labels := labelSet u.labels r.providerKey user.login }
      , writes := [.update { u with labels := labelSet u.labels r.providerKey user.login }] } := by
  unfold resolveAfterLabel
  rw [if_pos hlogin, hacct]
  simp

lemma resolveAfterLabel_acct_miss (r : GitUserResolver) (store : List User)
    (user : GitUser) (hacct : accountMatches r.providerKey user.login store = []) :
    resolveAfterLabel r store user = emailStage r store user := by
  unfold resolveAfterLabel
  by_cases hlogin : user.login ≠ ""
  · rw [if_pos hlogin, hacct]
    simp
  · rw [if_neg hlogin]

lemma emailStage_ambiguous (r : GitUserResolver) (store : List User) (user : GitUser)
    (hlen : (emailPossibles (r.userInfo user.login) store).length > 1) :
    emailStage r store user = { result := .error .ambiguousEmail, writes := [] } := by
  unfold emailStage
  rw [if_pos hlen]

lemma emailStage_notFound (r : GitUserResolver) (store : List User) (user : GitUser)
    (hui : r.userInfo user.login = none) :
    emailStage r store user =
      { result := .ok (r.gitUserToUser user), writes := [.create (r.gitUserToUser user)] } := by
  unfold emailStage
  rw [hui]
  simp [emailPossibles, mergeGitUsers]

lemma emailStage_found (r : GitUserResolver) (store : List User) (user g : GitUser)
    (u : User) (hui : r.userInfo user.login = some g)
    (hposs : emailPossibles (some g) store = [u]) :
    emailStage r store user =
      { result := .ok (emailFound r user g u), writes := [.update (emailFound r user g u)] } := by
  unfold emailStage
  rw [hui, hposs]
  simp

lemma emailStage_error_ambiguous (r : GitUserResolver) (store : List User)
    (u : GitUser) :
    ∀ e, (emailStage r store u).result = .error e → e = .ambiguousEmail := by
  intro e h
  unfold emailStage at h
  split at h
  · simp_all
  · split at h <;> simp_all

/-! ### Write-shape lemmas: every path issues at most one write, and error
paths issue none. -/

lemma emailStage_shape (r : GitUserResolver) (store : List User) (u : GitUser) :
    ((emailStage r store u).writes = []
      ∨ (∃ v, (emailStage r store u).writes = [.update v])
      ∨ (∃ v, (emailStage r store u).writes = [.create v]))
    ∧ ∀ e, (emailStage r store u).result = .error e →
        (emailStage r store u).writes = [] := by
  unfold emailStage
  split
  · exact ⟨Or.inl rfl, fun e _ => rfl⟩
  · split
    · exact ⟨Or.inr (Or.inl ⟨_, rfl⟩), fun e h => nomatch h⟩
    · exact ⟨Or.inr (Or.inr ⟨_, rfl⟩), fun e h => nomatch h⟩

lemma resolveAfterLabel_shape (r : GitUserResolver) (store : List User) (u : GitUser) :
    ((resolveAfterLabel r store u).writes = []
      ∨ (∃ v, (resolveAfterLabel r store u).writes = [.update v])
      ∨ (∃ v, (resolveAfterLabel r store u).writes = [.create v]))
    ∧ ∀ e, (resolveAfterLabel r store u).result = .error e →
        (resolveAfterLabel r store u).writes = [] := by
  unfold resolveAfterLabel
  split
  · split
    · exact ⟨Or.inl rfl, fun e _ => rfl⟩
    · split
      · exact ⟨Or.inr (Or.inl ⟨_, rfl⟩), fun e h => nomatch h⟩
      · exact emailStage_shape r store u
  · exact emailStage_shape r store u

lemma gitUserAsUser_shape (r : GitUserResolver) (store : List User) (u : Option GitUser) :
    ((r.gitUserAsUser store u).writes = []
      ∨ (∃ v, (r.gitUserAsUser store u).writes = [.update v])
      ∨ (∃ v, (r.gitUserAsUser store u).writes = [.create v]))
    ∧ ∀ e, (r.gitUserAsUser store u).result = .error e →
        (r.gitUserAsUser store u).writes = [] := by
  cases u with
  | none => exact ⟨Or.inl rfl, fun e _ => rfl⟩
  | some user =>
    simp only [GitUserResolver.gitUserAsUser]
    split
    · split
      · exact ⟨Or.inl rfl, fun e _ => rfl⟩
      · split
        · exact ⟨Or.inl rfl, fun e h => nomatch h⟩
        · exact resolveAfterLabel_shape r store user
    · exact resolveAfterLabel_shape r store user

/-! ### The account scan as a record filter, under the documented invariant -/

lemma accountMatches_eq_filter (pk login : String) :
    ∀ store : List User,
      (∀ u ∈ store,
        (u.spec.accounts.filter (fun a => a.provider == pk && a.id == login)).length ≤ 1) →
      accountMatches pk login store =
        store.filter (fun u => u.spec.accounts.any (fun a => a.provider == pk && a.id == login)) := by
  intro store
  induction store with
  | nil => intro _; rfl
  | cons u rest ih =>
    intro hinv
    have hu := hinv u (List.mem_cons_self u rest)
    have hrest := ih (fun v hv => hinv v (List.mem_cons_of_mem u hv))
    unfold accountMatches
    rw [hrest, List.filter_cons]
    cases hfa : u.spec.accounts.filter (fun a => a.provider == pk && a.id == login) with
    | nil =>
      have hany : u.spec.accounts.any (fun a => a.provider == pk && a.id == login) = false := by
        rw [List.any_eq_false]
        exact (List.filter_eq_nil_iff.mp hfa)
      rw [hany]
      simp
    | cons a as =>
      have has : as = [] := by
        rw [hfa] at hu
        cases as with
        | nil => rfl
        | cons b bs => simp at hu
      subst has
      have hmem : a ∈ u.spec.accounts.filter (fun x => x.provider == pk && x.id == login) := by
        rw [hfa]; exact List.mem_cons_self a []
      have hpa := (List.mem_filter.mp hmem).2
      have hany : u.spec.accounts.any (fun x => x.provider == pk && x.id == login) = true := by
        rw [List.any_eq_true]
        exact ⟨a, (List.mem_filter.mp hmem).1, hpa⟩
      rw [hany]
      simp

/-! ### The commit scan as a first-match search -/

lemma scanCommits_eq_find (gitLogin : String) :
    ∀ commits : List GitCommit,
      scanCommits gitLogin commits =
        (commits.find? (commitMatches gitLogin)).bind (fun c => c.author) := by
  intro commits
  induction commits with
  | nil => rfl
  | cons c rest ih =>
    unfold scanCommits
    cases hca : c.author with
    | none =>
      have hm : commitMatches gitLogin c = false := by
        unfold commitMatches
        rw [hca]
      rw [List.find?_cons_of_neg _ (by rw [hm]; exact Bool.false_ne_true)]
      exact ih
    | some ca =>
      by_cases h : (gitLogin == ca.login) = true
      · have hm : commitMatches gitLogin c = true := by
          unfold commitMatches
          rw [hca]
          exact h
        rw [List.find?_cons_of_pos _ hm]
        simp [hca, h]
      · have hm : commitMatches gitLogin c = false := by
          unfold commitMatches
          rw [hca]
          exact Bool.eq_false_iff.mpr h
        rw [List.find?_cons_of_neg _ (by rw [hm]; exact Bool.false_ne_true)]
        simp only [h, if_false, Bool.false_eq_true]
        exact ih

/-- Classification of an outcome as an ambiguity failure. -/
def ResolveOutcome.isAmbiguousIdentity : ResolveOutcome → Bool
  | .error e => e.isAmbiguous
  | .ok _ => false

/-! ### Concrete instances used by witnesses and counterexamples -/

/-- The provider key of a resolver whose provider kind is github. -/
def ghKey : String := "jenkins.io/git-github-userid"

/-- A github resolver whose remote lookup always reports not-found. -/
def rNotFound : GitUserResolver := { gitProviderKind := "github", userInfo := fun _ => none }

/-- A remote fragment with an empty email. -/
def gEmptyEmail : GitUser :=
  { login := "march-hare", name := "", email := "", url := "", avatarURL := "" }

/-- A github resolver whose remote lookup always returns `gEmptyEmail`. -/
def rEmptyEmail : GitUserResolver :=
  { gitProviderKind := "github", userInfo := fun _ => some gEmptyEmail }

/-- A fragment with only a login. -/
def fragAlice : GitUser := { login := "alice", name := "", email := "", url := "", avatarURL := "" }

/-- A fragment with an empty login but other fields set. -/
def fragNameOnly : GitUser :=
  { login := "", name := "Sig Nature", email := "sig@wonder.io", url := "", avatarURL := "" }

/-- A fragment with every field non-empty. -/
def fragCheshire : GitUser :=
  { login := "cheshire", name := "Ches", email := "ches@wonder.io"
  , url := "https://wonder.io/cheshire", avatarURL := "https://wonder.io/cheshire.png" }

/-- A stored record with empty email and no labels or accounts. -/
def uDormouse : User :=
  { name := "dormouse", labels := []
  , spec := { login := "", name := "", email := "", url := "", avatarURL := "", accounts := [] } }

/-- A stored record labeled for the alice login. -/
def uAliceA : User :=
  { name := "alice-a", labels := [(ghKey, "alice")]
  , spec := { login := "alice", name := "", email := "", url := "", avatarURL := "", accounts := [] } }

/-- A second stored record labeled for the alice login. -/
def uAliceB : User :=
  { name := "alice-b", labels := [(ghKey, "alice")]
  , spec := { login := "alice", name := "", email := "", url := "", avatarURL := "", accounts := [] } }

/-- A fragment with the bob login. -/
def fragBob : GitUser := { login := "bob", name := "", email := "", url := "", avatarURL := "" }

/-- A stored record holding the bob AccountReference but missing the index
label. -/
def uBobAcct : User :=
  { name := "bob", labels := []
  , spec := { login := "bob", name := "Bob", email := "bob@wonder.io", url := "", avatarURL := ""
            , accounts := [{ provider := ghKey, id := "bob" }] } }

/-- The record the creation fallback builds from `fragCheshire`. -/
def uCheshireCreated : User :=
  { name := "cheshire", labels := []
  , spec := { login := "cheshire", name := "Ches", email := "ches@wonder.io", url := ""
            , avatarURL := "", accounts := [{ provider := ghKey, id := "cheshire" }] } }

/-- A resolved record with a hatter AccountReference and no email. -/
def uHatter : User :=
  { name := "hatter", labels := [(ghKey, "hatter")]
  , spec := { login := "hatter", name := "Hatter", email := "", url := "", avatarURL := ""
            , accounts := [{ provider := ghKey, id := "hatter" }] } }

/-- The commit author whose login matches the hatter record. -/
def hatterAuthor : GitUser :=
  { login := "hatter", name := "Hatter", email := "hatter@wonder.io", url := "", avatarURL := "" }

/-- A commit by a different author. -/
def commitOther : GitCommit :=
  { sha := "fffe"
  , author := some { login := "queen", name := "", email := "queen@wonder.io", url := "", avatarURL := "" } }

/-- The first commit authored by the hatter login. -/
def commitHit : GitCommit := { sha := "abcd", author := some hatterAuthor }

/-- A pull request (only its non-nilness matters). -/
def prOne : GitPullRequest := { number := 1 }

/-- The all-empty fragment. -/
def emptyGitUser : GitUser := { login := "", name := "", email := "", url := "", avatarURL := "" }

/-! ### Claims -/

/-- Claim C1, counterexample: the email-correlation stage has no emptiness
guard. With one stored record whose email is empty, a fragment whose login
misses the label index and the account scan, and a provider view whose email
is empty, resolution does return that record and does mutate it (one update
appending the AccountReference and the label), on the basis of two empty
emails — refuting the claim that a record matches only when the remote email
is non-empty. -/
theorem resolve_matches_on_empty_email_cex :
    rEmptyEmail.gitUserAsUser [uDormouse] (some fragAlice) =
      { result := .ok
          { name := "dormouse", labels := [(ghKey, "alice")]
          , spec := { login := "", name := "", email := "", url := "", avatarURL := ""
                    , accounts := [{ provider := ghKey, id := "march-hare" }] } }
      , writes := [.update
          { name := "dormouse", labels := [(ghKey, "alice")]
          , spec := { login := "", name := "", email := "", url := "", avatarURL := ""
                    , accounts := [{ provider := ghKey, id := "march-hare" }] } }] }
    ∧ uDormouse.spec.email = "" ∧ gEmptyEmail.email = "" := by
  exact ⟨by decide, rfl, rfl⟩

/-- Claim C1 (corrected): the email-match condition of the remote-lookup stage
is plain string equality with no emptiness guard, so a stored record whose
email is empty does match a remote fragment whose email is empty; whenever it
is the unique such record and the earlier stages found nothing, resolution
returns it and issues one update for it. -/
theorem resolve_email_match_ignores_emptiness (r : GitUserResolver)
    (store : List User) (frag g : GitUser) (u : User)
    (hlogin : frag.login ≠ "")
    (hlabel : labelHits r.providerKey frag.login store = [])
    (hacct : accountMatches r.providerKey frag.login store = [])
    (hui : r.userInfo frag.login = some g)
    (hemail : g.email = "")
    (huniq : emailPossibles (some g) store = [u]) :
    r.gitUserAsUser store (some frag) =
      { result := .ok (emailFound r frag g u)
      , writes := [.update (emailFound r frag g u)] }
    ∧ u.spec.email = "" := by
  constructor
  · rw [gitUserAsUser_label_miss r store frag hlogin hlabel,
        resolveAfterLabel_acct_miss r store frag hacct,
        emailStage_found r store frag g u hui huniq]
  · have hmem : u ∈ emailPossibles (some g) store := by
      rw [huniq]
      exact List.mem_cons_self u []
    have hfil : u ∈ store.filter (fun v => v.spec.email == g.email) := hmem
    have hbeq := (List.mem_filter.mp hfil).2
    rw [eq_of_beq hbeq, hemail]

/-- Witness for claim C1: the corrected statement evaluated on a concrete
one-record store with empty emails on both sides. -/
theorem resolve_email_match_ignores_emptiness_witness :
    rEmptyEmail.gitUserAsUser [uDormouse] (some fragAlice) =
      { result := .ok (emailFound rEmptyEmail fragAlice gEmptyEmail uDormouse)
      , writes := [.update (emailFound rEmptyEmail fragAlice gEmptyEmail uDormouse)] }
    ∧ uDormouse.spec.email = "" :=
  resolve_email_match_ignores_emptiness rEmptyEmail [uDormouse] fragAlice gEmptyEmail uDormouse
    (by decide) (by decide) (by decide) rfl rfl (by decide)

/-- Claim C2 (confirmed): whenever a reached cascade stage finds more than one
candidate — more than one label-indexed hit, more than one AccountReference
match, or more than one email match — resolution fails with an ambiguity
error and performs zero store writes. -/
theorem resolve_ambiguity_errors_without_writes (r : GitUserResolver)
    (store : List User) (frag : GitUser)
    (h :
      (frag.login ≠ "" ∧ (labelHits r.providerKey frag.login store).length > 1)
      ∨ (frag.login ≠ "" ∧ labelHits r.providerKey frag.login store = []
          ∧ (accountMatches r.providerKey frag.login store).length > 1)
      ∨ ((frag.login = ""
            ∨ (labelHits r.providerKey frag.login store = []
                ∧ accountMatches r.providerKey frag.login store = []))
          ∧ (emailPossibles (r.userInfo frag.login) store).length > 1)) :
    (r.gitUserAsUser store (some frag)).result.isAmbiguousIdentity = true
    ∧ (r.gitUserAsUser store (some frag)).writes = [] := by
  rcases h with ⟨hlogin, hlen⟩ | ⟨hlogin, hlab, hlen⟩ | ⟨hreach, hlen⟩
  · rw [gitUserAsUser_label_ambiguous r store frag hlogin hlen]
    exact ⟨rfl, rfl⟩
  · rw [gitUserAsUser_label_miss r store frag hlogin hlab,
        resolveAfterLabel_acct_ambiguous r store frag hlogin hlen]
    exact ⟨rfl, rfl⟩
  · rcases hreach with hempty | ⟨hlab, hacct⟩
    · rw [gitUserAsUser_login_empty r store frag hempty,
          emailStage_ambiguous r store frag hlen]
      exact ⟨rfl, rfl⟩
    · by_cases hlogin : frag.login = ""
      · rw [gitUserAsUser_login_empty r store frag hlogin,
            emailStage_ambiguous r store frag hlen]
        exact ⟨rfl, rfl⟩
      · rw [gitUserAsUser_label_miss r store frag hlogin hlab,
            resolveAfterLabel_acct_miss r store frag hacct,
            emailStage_ambiguous r store frag hlen]
        exact ⟨rfl, rfl⟩

/-- Witness for claim C2: two records carrying the alice label make the fast
path ambiguous; resolution errors with no write. -/
theorem resolve_ambiguity_errors_without_writes_witness :
    (rNotFound.gitUserAsUser [uAliceA, uAliceB] (some fragAlice)).result.isAmbiguousIdentity = true
    ∧ (rNotFound.gitUserAsUser [uAliceA, uAliceB] (some fragAlice)).writes = [] :=
  resolve_ambiguity_errors_without_writes rNotFound [uAliceA, uAliceB] fragAlice
    (Or.inl ⟨by decide, by decide⟩)

/-- Claim C3, counterexample: the creation fallback builds the new record
through `CreateUser`, which receives only the login, name and email of the
merged fragment, so the url (and avatar url) of the original fragment are not
carried onto the created record: for a fragment with a non-empty url the
created record has an empty url, refuting that all fields of the record equal
the fields of the fragment. -/
theorem resolve_creation_drops_url_cex :
    rNotFound.gitUserAsUser [] (some fragCheshire) =
      { result := .ok uCheshireCreated, writes := [.create uCheshireCreated] }
    ∧ fragCheshire.url ≠ "" ∧ uCheshireCreated.spec.url = "" := by
  exact ⟨by decide, by decide, rfl⟩

/-- Claim C3 (corrected): with a non-empty login, no label hit, no
AccountReference match and a not-found provider lookup, resolution does not
fail: it performs exactly one create of a record built from the original
fragment alone, whose sole AccountReference is the provider key and login,
and whose login, name and email equal those of the fragment; its url and
avatar url are left empty (they are not passed to the record constructor). -/
theorem resolve_creation_fallback (r : GitUserResolver) (store : List User)
    (frag : GitUser)
    (hlogin : frag.login ≠ "")
    (hlabel : labelHits r.providerKey frag.login store = [])
    (hacct : accountMatches r.providerKey frag.login store = [])
    (hui : r.userInfo frag.login = none) :
    r.gitUserAsUser store (some frag) =
      { result := .ok (r.gitUserToUser frag), writes := [.create (r.gitUserToUser frag)] }
    ∧ (r.gitUserToUser frag).spec.accounts = [{ provider := r.providerKey, id := frag.login }]
    ∧ (r.gitUserToUser frag).spec.login = frag.login
    ∧ (r.gitUserToUser frag).spec.name = frag.name
    ∧ (r.gitUserToUser frag).spec.email = frag.email
    ∧ (r.gitUserToUser frag).spec.url = ""
    ∧ (r.gitUserToUser frag).spec.avatarURL = "" := by
  refine ⟨?_, rfl, rfl, rfl, rfl, rfl, rfl⟩
  rw [gitUserAsUser_label_miss r store frag hlogin hlabel,
      resolveAfterLabel_acct_miss r store frag hacct,
      emailStage_notFound r store frag hui]

/-- Witness for claim C3: the corrected creation fallback evaluated on an
empty store with a not-found provider. -/
theorem resolve_creation_fallback_witness :
    rNotFound.gitUserAsUser [] (some fragCheshire) =
      { result := .ok (rNotFound.gitUserToUser fragCheshire)
      , writes := [.create (rNotFound.gitUserToUser fragCheshire)] }
    ∧ (rNotFound.gitUserToUser fragCheshire).spec.accounts =
        [{ provider := rNotFound.providerKey, id := fragCheshire.login }]
    ∧ (rNotFound.gitUserToUser fragCheshire).spec.login = fragCheshire.login
    ∧ (rNotFound.gitUserToUser fragCheshire).spec.name = fragCheshire.name
    ∧ (rNotFound.gitUserToUser fragCheshire).spec.email = fragCheshire.email
    ∧ (rNotFound.gitUserToUser fragCheshire).spec.url = ""
    ∧ (rNotFound.gitUserToUser fragCheshire).spec.avatarURL = "" :=
  resolve_creation_fallback rNotFound [] fragCheshire (by decide) (by decide) (by decide) rfl

/-- Claim C4 (confirmed): one invocation of the resolution performs at most
one store mutation — no writes, or exactly one update, or exactly one create;
and every error path performs zero writes. -/
theorem resolve_at_most_one_write (r : GitUserResolver) (store : List User)
    (user : Option GitUser) :
    (r.gitUserAsUser store user).writes.length ≤ 1
    ∧ ((r.gitUserAsUser store user).writes = []
      ∨ (∃ v, (r.gitUserAsUser store user).writes = [.update v])
      ∨ (∃ v, (r.gitUserAsUser store user).writes = [.create v]))
    ∧ ∀ e, (r.gitUserAsUser store user).result = .error e →
        (r.gitUserAsUser store user).writes = [] := by
  have h := gitUserAsUser_shape r store user
  refine ⟨?_, h.1, h.2⟩
  rcases h.1 with h0 | ⟨v, h0⟩ | ⟨v, h0⟩ <;> rw [h0] <;> simp

/-- Claim C5 (confirmed): with a non-empty login missing from the label index
but carried by the AccountReference list of exactly one stored record (each
record holding at most one matching reference, the documented account-list
invariant), resolution returns that record and issues exactly one update
whose only change is writing the provider-key label with the login onto the
record. -/
theorem resolve_index_healing (r : GitUserResolver) (store : List User)
    (frag : GitUser) (u : User)
    (hlogin : frag.login ≠ "")
    (hlabel : labelHits r.providerKey frag.login store = [])
    (hinv : ∀ v ∈ store,
      (v.spec.accounts.filter (fun a => a.provider == r.providerKey && a.id == frag.login)).length ≤ 1)
    (huniq : store.filter
        (fun v => v.spec.accounts.any (fun a => a.provider == r.providerKey && a.id == frag.login))
        = [u]) :
    r.gitUserAsUser store (some frag) =
      { result := .ok { u with labels := labelSet u.labels r.providerKey frag.login }
      , writes := [.update { u with labels := labelSet u.labels r.providerKey frag.login }] } := by
  have hacct : accountMatches r.providerKey frag.login store = [u] := by
    rw [accountMatches_eq_filter r.providerKey frag.login store hinv, huniq]
  rw [gitUserAsUser_label_miss r store frag hlogin hlabel,
      resolveAfterLabel_acct_hit r store frag u hlogin hacct]

/-- Witness for claim C5: healing evaluated on a one-record store carrying
the bob AccountReference without the label. -/
theorem resolve_index_healing_witness :
    rNotFound.gitUserAsUser [uBobAcct] (some fragBob) =
      { result := .ok { uBobAcct with labels := labelSet uBobAcct.labels rNotFound.providerKey fragBob.login }
      , writes := [.update { uBobAcct with labels := labelSet uBobAcct.labels rNotFound.providerKey fragBob.login }] } :=
  resolve_index_healing rNotFound [uBobAcct] fragBob uBobAcct
    (by decide) (by decide) (by decide) (by decide)

/-- Claim C6 (confirmed): with exactly one record labeled with the provider
key and login, resolution returns it with zero writes; hence the store is
unchanged and a second resolution of the same fragment returns the identical
record again with zero writes. -/
theorem resolve_fast_path_idempotent (r : GitUserResolver) (store : List User)
    (frag : GitUser) (u : User)
    (hlogin : frag.login ≠ "")
    (hhits : labelHits r.providerKey frag.login store = [u]) :
    r.gitUserAsUser store (some frag) = { result := .ok u, writes := [] }
    ∧ applyWrites store (r.gitUserAsUser store (some frag)).writes = store
    ∧ r.gitUserAsUser (applyWrites store (r.gitUserAsUser store (some frag)).writes) (some frag)
        = { result := .ok u, writes := [] } := by
  have h1 := gitUserAsUser_label_hit r store frag u hlogin hhits
  refine ⟨h1, ?_, ?_⟩
  · rw [h1]
    rfl
  · rw [h1]
    exact h1

/-- Witness for claim C6: idempotence of the fast path on a one-record
labeled store. -/
theorem resolve_fast_path_idempotent_witness :
    rNotFound.gitUserAsUser [uAliceA] (some fragAlice) = { result := .ok uAliceA, writes := [] }
    ∧ applyWrites [uAliceA] (rNotFound.gitUserAsUser [uAliceA] (some fragAlice)).writes = [uAliceA]
    ∧ rNotFound.gitUserAsUser
        (applyWrites [uAliceA] (rNotFound.gitUserAsUser [uAliceA] (some fragAlice)).writes)
        (some fragAlice)
        = { result := .ok uAliceA, writes := [] } :=
  resolve_fast_path_idempotent rNotFound [uAliceA] fragAlice uAliceA (by decide) (by decide)

/-- Claim C7 (confirmed): the merge takes, field by field (avatar url, url,
name, login, email), the first-argument value when non-empty and the
second-argument value otherwise; a nil argument yields the other argument
unchanged. -/
theorem mergeGitUsers_field_precedence (u1 u2 : GitUser) :
    (∃ m, mergeGitUsers (some u1) (some u2) = some m
      ∧ m.avatarURL = (if u1.avatarURL ≠ "" then u1.avatarURL else u2.avatarURL)
      ∧ m.url = (if u1.url ≠ "" then u1.url else u2.url)
      ∧ m.name = (if u1.name ≠ "" then u1.name else u2.name)
      ∧ m.login = (if u1.login ≠ "" then u1.login else u2.login)
      ∧ m.email = (if u1.email ≠ "" then u1.email else u2.email))
    ∧ mergeGitUsers (some u1) none = some u1
    ∧ mergeGitUsers none (some u2) = some u2 :=
  ⟨⟨_, rfl, rfl, rfl, rfl, rfl, rfl⟩, rfl, rfl⟩

/-- Claim C8, counterexample: merging two nil fragments returns nil, not a
fragment with all fields empty. -/
theorem mergeGitUsers_both_nil_cex :
    mergeGitUsers none none = none ∧ mergeGitUsers none none ≠ some emptyGitUser :=
  ⟨rfl, by decide⟩

/-- Claim C8 (corrected): when both arguments are nil, the merge returns nil
(no fragment at all), mirroring the nil-first-argument branch. -/
theorem mergeGitUsers_both_nil : mergeGitUsers none none = none := rfl

/-- Claim C9 (confirmed): for a non-nil record, pull request and commit list,
the reconciler determines the record login for the provider (AccountReference
id, falling back to the raw spec login), finds the first commit whose non-nil
author has that login, overwrites the record email with that author email and
issues exactly one update; with no matching commit it returns the record
unchanged with no write; with a nil pull request it does nothing. -/
theorem updateUserFromPRAuthor_backfill (r : GitUserResolver) (a : User)
    (pr : GitPullRequest) (commits : List GitCommit) :
    (∀ c ca, commits.find? (commitMatches (effectiveGitLogin r a)) = some c →
      c.author = some ca →
      r.updateUserFromPRAuthor (some a) (some pr) commits =
        (some { a with spec := { a.spec with email := ca.email } },
         [.update { a with spec := { a.spec with email := ca.email } }]))
    ∧ (commits.find? (commitMatches (effectiveGitLogin r a)) = none →
      r.updateUserFromPRAuthor (some a) (some pr) commits = (some a, []))
    ∧ r.updateUserFromPRAuthor (some a) none commits = (some a, []) := by
  refine ⟨?_, ?_, rfl⟩
  · intro c ca hfind hca
    simp [GitUserResolver.updateUserFromPRAuthor, scanCommits_eq_find, hfind, hca]
  · intro hfind
    simp [GitUserResolver.updateUserFromPRAuthor, scanCommits_eq_find, hfind]

/-- Witness for claim C9: the backfill evaluated on a two-commit list whose
second commit is the first (and only) author match. -/
theorem updateUserFromPRAuthor_backfill_witness :
    rNotFound.updateUserFromPRAuthor (some uHatter) (some prOne) [commitOther, commitHit] =
      (some { uHatter with spec := { uHatter.spec with email := hatterAuthor.email } },
       [.update { uHatter with spec := { uHatter.spec with email := hatterAuthor.email } }]) :=
  (updateUserFromPRAuthor_backfill rNotFound uHatter prOne [commitOther, commitHit]).1
    commitHit hatterAuthor (by decide) rfl

/-- Claim C10 (confirmed): a fragment with an empty login skips the label
lookup and the AccountReference scan entirely — the resolution equals the
remote-lookup/email-correlation stage (with its creation fallback) applied
directly, and any error it raises is the email ambiguity, never the label or
login ambiguity. -/
theorem resolve_empty_login_skips_lookups (r : GitUserResolver)
    (store : List User) (frag : GitUser) (h : frag.login = "") :
    r.gitUserAsUser store (some frag) = emailStage r store frag
    ∧ ∀ e, (r.gitUserAsUser store (some frag)).result = .error e → e = .ambiguousEmail := by
  have h1 := gitUserAsUser_login_empty r store frag h
  refine ⟨h1, fun e he => ?_⟩
  rw [h1] at he
  exact emailStage_error_ambiguous r store frag e he

/-- Witness for claim C10: a login-less fragment resolved against the empty
store goes straight to the remote stage. -/
theorem resolve_empty_login_skips_lookups_witness :
    rNotFound.gitUserAsUser [] (some fragNameOnly) = emailStage rNotFound [] fragNameOnly :=
  (resolve_empty_login_skips_lookups rNotFound [] fragNameOnly rfl).1

end Jx
